import Mathlib

/-!
Verification of the extraction-and-normalization pipeline in
`normalize_data.py` (name resolver, PDF/Excel price extractors, recipe
extractor, and the orchestrating `DataPipeline`).

Modelling conventions:
* Python strings are Lean `String`s; most processing is done on their
  `List Char` data.
* Python floats are modelled as `ℚ` (all arithmetic performed by the
  program on parsed numbers - the ×1000 unit scaling - is exact on the
  decimal values the parsers produce).
* Python dicts are modelled as insertion-ordered association lists with
  unique keys; assignment replaces an existing binding in place or
  appends a fresh one, exactly the observable dict semantics.
* `str.lower` / `str.strip` / `\d` / `str.isdigit` are modelled on the
  ASCII and Latin-1 ranges actually exercised by the program's static
  table and documents; other Unicode code points are left unchanged.
* Regular expressions are hand-compiled to functions that implement the
  leftmost-search, greedy, backtracking semantics of `re.search` for the
  exact patterns appearing in the source; every place where greedy
  matching provably needs no backtracking is noted where it is used.
-/

/- Batteries marks the `Rat` arithmetic irreducible; the concrete
evaluations below need the elaborator to unfold it (the kernel always
could). -/
attribute [local semireducible] Rat.mul Rat.add Rat.inv Rat.sub Rat.ofScientific

namespace WNS

/-! ### Python character-level primitives -/

/-- `str.lower` on one character: ASCII `A`-`Z` and the Latin-1 uppercase
range `À`-`Þ` (minus `×`) map down by 32, everything else is unchanged
(these are the only ranges the program's data can exercise). -/
def pyLowerChar (c : Char) : Char :=
  if 'A' ≤ c ∧ c ≤ 'Z' then Char.ofNat (c.toNat + 32)
  else if 'À' ≤ c ∧ c ≤ 'Þ' ∧ c ≠ '×' then Char.ofNat (c.toNat + 32)
  else c

/-- The whitespace class of Python's `str.strip` and of `\s`
(ASCII part: space, tab, newline, carriage return, vertical tab,
form feed). -/
def pySpaceB (c : Char) : Bool :=
  c == ' ' || c == '\t' || c == '\n' || c == '\x0d' || c == '\x0b' || c == '\x0c'

/-- `str.strip()` on the character list of a string. -/
def pyStripL (l : List Char) : List Char :=
  ((l.dropWhile pySpaceB).reverse.dropWhile pySpaceB).reverse

/-- The character class `[\d\.,]` of the numeric-token patterns. -/
def numChar (c : Char) : Bool :=
  c.isDigit || c == '.' || c == ','

/-- The comma-to-period substitution `s.replace(',', '.')`. -/
def commaDot (c : Char) : Char :=
  if c = ',' then '.' else c

/-- `needle` occurs at the very front of `l`. -/
def listLeadsWith : List Char → List Char → Bool
  | [], _ => true
  | _ :: _, [] => false
  | a :: as, b :: bs => a == b && listLeadsWith as bs

/-- Python's substring operator `needle in hay` (contiguous occurrence;
an empty needle always occurs). -/
def listHasSub (needle : List Char) : List Char → Bool
  | [] => listLeadsWith needle []
  | c :: t => listLeadsWith needle (c :: t) || listHasSub needle t

/-! ### Python float parsing

`float(s)` as exercised by the program: optional surrounding whitespace,
an optional sign, then decimal digits with at most one point and at
least one digit (exponents, `inf`/`nan` and `_` separators are not
produced by any string the program builds and are not modelled). -/

/-- Value of a digit run read in base 10. -/
def digitsVal (ds : List Char) : Nat :=
  ds.foldl (fun a c => a * 10 + (c.toNat - 48)) 0

/-- Unsigned part of `float(s)`: `ddd`, `ddd.ddd`, `ddd.` or `.ddd`
(integer digit run, then optionally a point and the fraction digit run;
at least one digit over all, nothing else allowed). -/
def pyFloatMag (u : List Char) : Option ℚ :=
  match u.dropWhile Char.isDigit with
  | [] =>
      if (u.takeWhile Char.isDigit).isEmpty then none
      else some ((digitsVal (u.takeWhile Char.isDigit) : ℚ))
  | '.' :: fr =>
      if (fr.dropWhile Char.isDigit).isEmpty
          && !((u.takeWhile Char.isDigit).isEmpty && (fr.takeWhile Char.isDigit).isEmpty) then
        some ((digitsVal (u.takeWhile Char.isDigit) : ℚ)
          + (digitsVal (fr.takeWhile Char.isDigit) : ℚ) / (10 ^ (fr.takeWhile Char.isDigit).length))
      else none
  | _ => none

/-- Python `float(s)`, returning `none` where `float` raises
`ValueError`. -/
def pyFloat (s : String) : Option ℚ :=
  match pyStripL s.data with
  | '-' :: r => (pyFloatMag r).map (fun m => -m)
  | '+' :: r => pyFloatMag r
  | t => pyFloatMag t

/-! ### The static canonical-name table

`NormalizationService._MASTER_MAP`, in source (= dict iteration)
order. -/

def masterMap : List (String × String) :=
  [ ("tomate", "tomate"), ("lechuga", "lechuga"), ("zanahoria", "zanahoria"),
    ("papa", "papa"), ("cebolla", "cebolla"), ("morron", "morron"), ("morrón", "morron"),
    ("zapallo", "zapallo"), ("acelga", "acelga"), ("espinaca", "espinaca"),
    ("brócoli", "brocoli"), ("brocoli", "brocoli"), ("coli", "brocoli"),
    ("berenjena", "berenjena"), ("calabaza", "calabaza"), ("pepino", "pepino"),
    ("remolacha", "remolacha"), ("batata", "batata"), ("choclo", "choclo"),
    ("asado de tira", "asado_de_tira"), ("asado", "asado_de_tira"),
    ("vacio", "vacio"), ("vacío", "vacio"),
    ("bife de chorizo", "bife_de_chorizo"), ("lomo", "lomo"), ("cuadril", "cuadril"),
    ("roast beef", "roast_beef"), ("falda", "falda"), ("matambre", "matambre"),
    ("entraña", "entrana"), ("carne picada", "carne_picada"),
    ("carne picada especial", "carne_picada"),
    ("bondiola", "bondiola"), ("costillas", "costillas"), ("lomo de cerdo", "lomo_cerdo"),
    ("jamón fresco", "jamon"), ("jamon fresco", "jamon"), ("panceta", "panceta"),
    ("pollo entero", "pollo"), ("pollo", "pollo"), ("pechuga", "pechuga"),
    ("muslo", "muslo"), ("ala", "ala"), ("patamuslo", "patamuslo"),
    ("supremas", "supremas"),
    ("merluza fresca", "merluza"), ("merluza", "merluza"),
    ("salmón rosado", "salmon"), ("salmon", "salmon"),
    ("corvina", "corvina"), ("lenguado", "lenguado"), ("pejerrey", "pejerrey"),
    ("filet de abadejo", "abadejo"), ("abadejo", "abadejo"),
    ("calamar limpio", "calamar"), ("calamar", "calamar"), ("mejillones", "mejillones") ]

/-- An argument to `NormalizationService.normalize`: either a Python
string or a value of any other type. -/
inductive PyInput where
  | str (s : String)
  | nonStr
deriving DecidableEq

/-- `text.lower().strip()`. -/
def cleanOf (s : String) : String :=
  ⟨pyStripL (s.data.map pyLowerChar)⟩

/-- `NormalizationService.normalize`, translated line by line:
non-strings yield `None`; otherwise lower + strip, `O(1)` exact dict
lookup, then a linear scan returning the value of the first table key
occurring as a substring of the cleaned text. -/
def normalize : PyInput → Option String
  | .nonStr => none
  | .str text =>
    let clean := cleanOf text
    if masterMap.any (fun q => q.1 == clean) then
      (masterMap.find? (fun q => q.1 == clean)).map (fun q => q.2)
    else
      (masterMap.find? (fun q => listHasSub q.1.data clean.data)).map (fun q => q.2)

/-! Spec-side restatement of claim C3, phrased as the claim phrases it:
phase 1 is an exact lookup of the cleaned input in the static table,
phase 2 (only on phase-1 failure) linearly scans the table and returns
the canonical value of the first entry whose raw name is a substring of
the cleaned input; non-strings match nothing. -/

/-- Exact-lookup phase of the claimed algorithm. -/
def exactLookup (clean : String) : Option String :=
  (masterMap.find? (fun q => q.1 == clean)).map (fun q => q.2)

/-- Substring-scan phase of the claimed algorithm. -/
def substrScan (clean : String) : Option String :=
  (masterMap.find? (fun q => listHasSub q.1.data clean.data)).map (fun q => q.2)

/-- Claim C3's description of `resolve`/`normalize`. -/
def normalizeClaimed : PyInput → Option String
  | .nonStr => none
  | .str text =>
    match exactLookup (cleanOf text) with
    | some v => some v
    | none => substrScan (cleanOf text)

/-! ### Data model -/

/-- `IngredientItem`: one ingredient inside a recipe. -/
structure IngredientItem where
  id : String
  name : String
  qty_g : ℚ
deriving DecidableEq

/-- `Recipe`: a named, ordered list of ingredients. -/
structure Recipe where
  name : String
  ingredients : List IngredientItem
deriving DecidableEq

/-! ### The ingredient-line grammars

`RecipeExtractor._parse_ingredient_line` uses two `re.search` calls:

* pattern A: `([\d\.,]+)\s*(kg|g|kgs|grs)\s*(?:de)?\s*(.+)` (IGNORECASE)
* pattern B: `(.+):\s*([\d\.,]+)\s*(kg|g|kgs|grs)` (IGNORECASE)

They are compiled below to functions that follow `re.search`'s
backtracking order exactly: start positions left to right; greedy
quantifiers longest-first; alternation branches in written order; the
optional group tried with-content first.  Where a greedy element
provably admits no useful shorter retry (because the following element
can never match a character of the element's class) it is implemented
as its maximal run; each such spot is justified in place. -/

/-- Final `(.+)` of pattern A: at least one character, `.` cannot match
a newline, greedy and pattern-final so it captures the maximal
newline-free run. -/
def dotPlus : List Char → Option (List Char)
  | [] => none
  | c :: cs => if c = '\n' then none else some ((c :: cs).takeWhile (fun x => x ≠ '\n'))

/-- Backtracking loop of the second `\s*` of pattern A's tail: try
dropping `n` whitespace characters, longest first. -/
def tryS2 (p : List Char) : Nat → Option (List Char)
  | 0 => dotPlus p
  | n + 1 =>
    match dotPlus (p.drop (n + 1)) with
    | some g => some g
    | none => tryS2 p n

/-- Pattern A tail `(?:de)?\s*(.+)` at a fixed position (after the
first `\s*` has dropped some amount): the optional `de` (IGNORECASE) is
tried first, and each branch runs the greedy second `\s*` longest
first. -/
def tailAt (p1 : List Char) : Option (List Char) :=
  let deB :=
    match p1 with
    | a :: b :: r =>
        if pyLowerChar a = 'd' ∧ pyLowerChar b = 'e' then
          tryS2 r (r.takeWhile pySpaceB).length
        else none
    | _ => none
  match deB with
  | some g => some g
  | none => tryS2 p1 (p1.takeWhile pySpaceB).length

/-- Backtracking loop of the first `\s*` of pattern A's tail (drop `n`
characters, longest first). -/
def tailLoop (rest : List Char) : Nat → Option (List Char)
  | 0 => tailAt rest
  | n + 1 =>
    match tailAt (rest.drop (n + 1)) with
    | some g => some g
    | none => tailLoop rest n

/-- Pattern A's tail `\s*(?:de)?\s*(.+)` with full backtracking,
returning group 3. -/
def tailMatch (rest : List Char) : Option (List Char) :=
  tailLoop rest (rest.takeWhile pySpaceB).length

/-- One alternation branch `u` (a lowercase literal) of
`(kg|g|kgs|grs)` at the current position, IGNORECASE, followed by the
tail; returns (captured unit text, group 3). -/
def tryUnit (cs : List Char) (u : List Char) : Option (List Char × List Char) :=
  let pre := cs.take u.length
  if pre.length = u.length ∧ pre.map pyLowerChar = u then
    (tailMatch (cs.drop u.length)).map (fun g => (pre, g))
  else none

/-- The alternation `(kg|g|kgs|grs)` (in written order) followed by
pattern A's tail. -/
def altUnit (cs : List Char) : Option (List Char × List Char) :=
  match tryUnit cs ['k', 'g'] with
  | some r => some r
  | none =>
    match tryUnit cs ['g'] with
    | some r => some r
    | none =>
      match tryUnit cs ['k', 'g', 's'] with
      | some r => some r
      | none => tryUnit cs ['g', 'r', 's']

/-- Pattern A attempted at one start position; returns
`(cant, unit, prod)` = groups 1-3.  `([\d\.,]+)` and the following
`\s*` are taken as maximal runs: a shorter retry of either would leave
the unit alternation to start on a `[\d\.,]` or whitespace character,
and `k`/`K`/`g`/`G` are in neither class. -/
def patAAt (cs : List Char) : Option (List Char × List Char × List Char) :=
  if (cs.takeWhile numChar).isEmpty then none
  else
    match altUnit ((cs.dropWhile numChar).dropWhile pySpaceB) with
    | some (u, g) => some (cs.takeWhile numChar, u, g)
    | none => none

/-- `re.search` of pattern A: start positions tried left to right (a
position whose character is not in `[\d\.,]` fails immediately). -/
def patASearch : List Char → Option (List Char × List Char × List Char)
  | [] => none
  | c :: rest =>
    match patAAt (c :: rest) with
    | some r => some r
    | none => patASearch rest

/-- The alternation `(kg|g|kgs|grs)` at the end of pattern B: nothing
follows it, so a branch succeeds as soon as its literal matches
(IGNORECASE). -/
def unitOnly (cs : List Char) : Option (List Char) :=
  let tryU := fun (u : List Char) =>
    let pre := cs.take u.length
    if pre.length = u.length ∧ pre.map pyLowerChar = u then some pre else none
  match tryU ['k', 'g'] with
  | some r => some r
  | none =>
    match tryU ['g'] with
    | some r => some r
    | none =>
      match tryU ['k', 'g', 's'] with
      | some r => some r
      | none => tryU ['g', 'r', 's']

/-- Pattern B after the matched `:` - `\s*([\d\.,]+)\s*(kg|g|kgs|grs)`.
Both `\s*` and the numeric run are maximal for the same
disjoint-character-class reason as in `patAAt`. -/
def patBAfter (cs : List Char) : Option (List Char × List Char) :=
  if ((cs.dropWhile pySpaceB).takeWhile numChar).isEmpty then none
  else
    match unitOnly (((cs.dropWhile pySpaceB).dropWhile numChar).dropWhile pySpaceB) with
    | some u => some ((cs.dropWhile pySpaceB).takeWhile numChar, u)
    | none => none

/-- One split attempt of pattern B at a fixed start: group 1 takes the
first `n + 1` characters (which must be newline-free), the literal `:`
must sit right after them, and the rest of the pattern runs on what
follows. -/
def patBTry (cs : List Char) (n : Nat) : Option (List Char × List Char × List Char) :=
  if (cs.drop (n + 1)).head? = some ':' ∧ (cs.take (n + 1)).all (fun x => x ≠ '\n') then
    match patBAfter (cs.drop (n + 2)) with
    | some p => some (cs.take (n + 1), p.1, p.2)
    | none => none
  else none

/-- Backtracking of pattern B's leading greedy `(.+)` at one start
position: the literal `:` is tried at offsets `n, n-1, …, 1` (longest
group 1 first); group 1 must be nonempty and newline-free. -/
def patBColon (cs : List Char) : Nat → Option (List Char × List Char × List Char)
  | 0 => none
  | n + 1 =>
    match patBTry cs n with
    | some r => some r
    | none => patBColon cs n

/-- `re.search` of pattern B: start positions left to right, and at
each start the `(.+):` split longest-first.  Returns
`(prod, cant, unit)` = groups 1-3. -/
def patBSearch : List Char → Option (List Char × List Char × List Char)
  | [] => none
  | c :: rest =>
    match patBColon (c :: rest) (c :: rest).length with
    | some r => some r
    | none => patBSearch rest

/-- The regex groups `(cant, unit, prod)` that
`_parse_ingredient_line` extracts from a line: pattern A first, pattern
B only if A finds no match. -/
def lineGroups (line : String) : Option (List Char × List Char × List Char) :=
  match patASearch line.data with
  | some r => some r
  | none =>
    match patBSearch line.data with
    | some (prod, cant, unit) => some (cant, unit, prod)
    | none => none

/-- `RecipeExtractor._parse_ingredient_line`: grammar match, name
resolution (a failed resolution discards the line), quantity parse with
`,` decimal normalization, and ×1000 when the captured unit lowercases
to something starting with `kg`. -/
def parseIngredientLine (line : String) : Option IngredientItem :=
  match lineGroups line with
  | none => none
  | some (cant, unit, prod) =>
    match normalize (.str ⟨prod⟩) with
    | none => none
    | some k =>
      match pyFloat ⟨cant.map commaDot⟩ with
      | none => none
      | some q =>
        some { id := k, name := ⟨pyStripL prod⟩,
               qty_g := if listLeadsWith ['k', 'g'] (unit.map pyLowerChar) then q * 1000 else q }

/-! ### Recipe document structure

`RecipeExtractor.extract` splits the document with
`re.split(r'^#\s+', content, flags=re.MULTILINE)` and processes each
block. -/

/-- Python `s.split('\n')` (keeps empty pieces). -/
def splitNl : List Char → List (List Char)
  | [] => [[]]
  | '\n' :: rest => [] :: splitNl rest
  | c :: rest =>
    match splitNl rest with
    | h :: t => (c :: h) :: t
    | [] => [[c]]

/-- `re.split(r'^#\s+', content, flags=re.MULTILINE)`: scan the text;
at the start of the string or just after a `\n`, a `#` followed by at
least one whitespace character starts a separator match whose greedy
`\s+` consumes the maximal whitespace run; the next position is again
"line start" only if the last consumed character was a `\n`.  The
recursion is fuelled so that it stays structural (every step consumes
at least one character, so any fuel above the text length is enough,
and `splitH1` below supplies it). -/
def splitH1F : Nat → List Char → Bool → List Char → List (List Char)
  | 0, _, _, acc => [acc.reverse]
  | _ + 1, [], _, acc => [acc.reverse]
  | fuel + 1, c :: rest, atStart, acc =>
    if c = '#' ∧ atStart = true ∧ (match rest with | r :: _ => pySpaceB r | [] => false) = true then
      let ws := rest.takeWhile pySpaceB
      acc.reverse ::
        splitH1F fuel (rest.dropWhile pySpaceB)
          (match ws.getLast? with | some x => x == '\n' | none => false) []
    else
      splitH1F fuel rest (c == '\n') (c :: acc)

/-- The block split of the recipe document. -/
def splitH1 (content : List Char) : List (List Char) :=
  splitH1F (content.length + 1) content true []

/-- The stripped, nonblank lines of a block:
`[l.strip() for l in block.split('\n') if l.strip()]`. -/
def blockLines (block : List Char) : List (List Char) :=
  ((splitNl block).map pyStripL).filter (fun l => !l.isEmpty)

/-- Per-block step of `RecipeExtractor.extract`: skip blank blocks,
skip index blocks (title containing `"Lista"`), parse the remaining
lines, and emit a `Recipe` only when at least one ingredient parsed. -/
def processBlock (block : List Char) : Option Recipe :=
  match blockLines block with
  | [] => none
  | title :: rest =>
    if listHasSub ("Lista").data title then none
    else
      let ings := rest.filterMap (fun l => parseIngredientLine ⟨l⟩)
      if ings.isEmpty then none else some { name := ⟨title⟩, ingredients := ings }

/-- `RecipeExtractor.extract` applied to the document text. -/
def recipeExtract (content : String) : List Recipe :=
  (splitH1 content.data).filterMap processBlock

/-! ### Python dict model -/

/-- Association list standing for a Python dict of prices. -/
abbrev Dict := List (String × ℚ)

/-- Dict assignment `d[k] = v`: replace the (unique) existing binding
in place, else append. -/
def dictSet : Dict → String → ℚ → Dict
  | [], k, v => [(k, v)]
  | p :: t, k, v => if p.1 = k then (k, v) :: t else p :: dictSet t k v

/-- Dict lookup. -/
def dictLookup (d : Dict) (k : String) : Option ℚ :=
  (d.find? (fun p => p.1 == k)).map (fun p => p.2)

/-- `d.update(new)`: assign every binding of `new` into `d` in
iteration order. -/
def dictUpdate (d new : Dict) : Dict :=
  new.foldl (fun a p => dictSet a p.1 p.2) d

/-! ### Layout (PDF) price extractor

`PDFPriceExtractor.extract`: join all pages' text, split into lines;
a line containing `$` is split at `$`; the name segment is
`parts[0].strip()`, the price token is the first `[\d\.,]+` run of
`parts[1]` (the segment between the first and second `$`). -/

/-- `re.search(r'([\d\.,]+)', s)`: leftmost-longest run of the
class. -/
def firstNumTok : List Char → Option (List Char)
  | [] => none
  | c :: rest =>
    if numChar c then some ((c :: rest).takeWhile numChar) else firstNumTok rest

/-- Processing of one line of the joined PDF text. -/
def pdfProcessLine (d : Dict) (line : List Char) : Dict :=
  if line.contains '$' then
    match firstNumTok (((line.dropWhile (fun c => c ≠ '$')).drop 1).takeWhile (fun c => c ≠ '$')) with
    | none => d
    | some ps =>
      match normalize (.str ⟨pyStripL (line.takeWhile (fun c => c ≠ '$'))⟩) with
      | none => d
      | some k =>
        match pyFloat ⟨(ps.filter (fun c => c ≠ '.')).map commaDot⟩ with
        | none => d
        | some v => dictSet d k v
  else d

/-- `PDFPriceExtractor.extract`.  The input is `none` when the file
does not exist (`file_exists` guard), else the list of the pages'
extracted texts, concatenated with `"".join` before the line split. -/
def pdfExtract (file : Option (List String)) : Dict :=
  match file with
  | none => []
  | some pages => (splitNl (String.join pages).data).foldl pdfProcessLine []

/-! ### Tabular (Excel/CSV) price extractor

`ExcelPriceExtractor.extract` scans a rectangular grid (the pandas
frame, cells already passed through `str()`), row major, pairing each
cell with its right neighbour. -/

/-- A stringified spreadsheet grid (rectangular: pandas pads short rows,
so per-row adjacency below equals the source's
`range(df.shape[1] - 1)` column loop). -/
abbrev Grid := List (List String)

/-- `str.isdigit` (ASCII digits; nonempty). -/
def isdigitB (l : List Char) : Bool :=
  !l.isEmpty && l.all Char.isDigit

/-- `val_price.replace('$', '').replace('.', '').replace(',', '.').strip()`. -/
def cleanPrice (s : String) : String :=
  ⟨pyStripL (((s.data.filter (fun c => c ≠ '$')).filter (fun c => c ≠ '.')).map commaDot)⟩

/-- The candidate test of the source:
`'$' in val_price or val_price.replace('.', '').isdigit()`. -/
def priceCandidate (p : String) : Bool :=
  p.data.contains '$' || isdigitB (p.data.filter (fun c => c ≠ '.'))

/-- One `(name cell, right neighbour)` step of the grid scan. -/
def excelStep (d : Dict) (p : String × String) : Dict :=
  match normalize (.str p.1) with
  | none => d
  | some k =>
    if priceCandidate p.2 then
      match pyFloat (cleanPrice p.2) with
      | some v => dictSet d k v
      | none => d
    else d

/-- Adjacent `(cell, right neighbour)` pairs of one row. -/
def rowPairs (row : List String) : List (String × String) :=
  row.zip row.tail

/-- `ExcelPriceExtractor.extract` on a present grid. -/
def excelScan (grid : Grid) : Dict :=
  grid.foldl (fun d row => (rowPairs row).foldl excelStep d) []

/-- `ExcelPriceExtractor.extract` including the absent-file guard. -/
def excelExtract (file : Option Grid) : Dict :=
  match file with
  | none => []
  | some grid => excelScan grid

/-! ### Pipeline and persistence -/

/-- The input filesystem as the pipeline sees it: the PDF price list,
the `.xlsx` workbook, the alternate `.xlsx - Hoja1.csv` export the
extension fallback retries, and the Markdown recipe file; `none` means
the file does not exist. -/
structure FS where
  pdf : Option (List String)
  xlsx : Option Grid
  csvAlt : Option Grid
  md : Option String

/-- The extension-fallback of `ExcelPriceExtractor.extract`: the
configured path always ends in `.xlsx`, so when it is missing and the
derived `.csv` path exists, the extractor reads the latter. -/
def excelGridOf (fs : FS) : Option Grid :=
  match fs.xlsx with
  | some g => some g
  | none => fs.csvAlt

/-- `RecipeExtractor.extract` including the absent-file guard. -/
def recipeExtractOf (file : Option String) : List Recipe :=
  match file with
  | none => []
  | some content => recipeExtract content

/-- The persisted artifact: `prices` and `recipes` under fixed
metadata. -/
structure Warehouse where
  prices : Dict
  recipes : List Recipe
deriving DecidableEq

/-- Steps 1 and 2 of `DataPipeline.run`: extract, merge prices with the
PDF (layout) source applied first and the Excel (tabular) source's
`update` overwriting it, extract recipes. -/
def mergePrices (layout tabular : Dict) : Dict :=
  dictUpdate (dictUpdate [] layout) tabular

/-- The `Warehouse` value a run assembles from the given inputs. -/
def wareOf (fs : FS) : Warehouse :=
  { prices := mergePrices (pdfExtract fs.pdf) (excelExtract (excelGridOf fs)),
    recipes := recipeExtractOf fs.md }

/-! ### Serialization (`json.dump(output, f, indent=4, ensure_ascii=False)`)

The output document has the fixed shape
`{"metadata": {"version", "generated_by"}, "prices": {...},
"recipes": [{"name", "ingredients": [{"id", "name", "qty_g"}]}]}`, so
the dump is modelled shape-directed at its fixed indent levels.
Literal braces are written with their `\x7b`/`\x7d` escapes. -/

/-- One hex digit. -/
def hexDig (n : Nat) : Char :=
  if n < 10 then Char.ofNat (48 + n) else Char.ofNat (87 + n)

/-- JSON string escaping as `json.dump` performs it with
`ensure_ascii=False`. -/
def escChar (c : Char) : List Char :=
  if c = '"' then ['\x5c', '"']
  else if c = '\x5c' then ['\x5c', '\x5c']
  else if c = '\n' then ['\x5c', 'n']
  else if c = '\t' then ['\x5c', 't']
  else if c = '\x0d' then ['\x5c', 'r']
  else if c = '\x08' then ['\x5c', 'b']
  else if c = '\x0c' then ['\x5c', 'f']
  else if c.toNat < 32 then
    ['\x5c', 'u', '0', '0', hexDig (c.toNat / 16), hexDig (c.toNat % 16)]
  else [c]

/-- A JSON string literal. -/
def jstr (s : String) : String :=
  "\"" ++ ⟨s.data.foldr (fun c acc => escChar c ++ acc) []⟩ ++ "\""

/-- `repr` of a Python float holding the exact decimal `q`: integral
values print with a trailing `.0`; otherwise the shortest decimal
expansion (the fallback for a non-decimal rational never arises from
the program's parsers, which only build decimal values). -/
def floatRepr (q : ℚ) : String :=
  if q.den = 1 then toString q.num ++ ".0"
  else
    match (List.range 18).find? (fun k => (q * (10 : ℚ) ^ k).den == 1) with
    | some k =>
        let m := (q * (10 : ℚ) ^ k).num
        let sign := if m < 0 then "-" else ""
        let ds := toString m.natAbs
        let ds := if ds.length ≤ k then String.mk (List.replicate (k + 1 - ds.length) '0') ++ ds else ds
        sign ++ ⟨ds.data.take (ds.length - k)⟩ ++ "." ++ ⟨ds.data.drop (ds.length - k)⟩
    | none => toString q

/-- The `prices` object at indent level 1. -/
def pricesJson (ps : Dict) : String :=
  if ps.isEmpty then "\x7b\x7d"
  else
    "\x7b\n"
      ++ String.intercalate (",\n")
          (ps.map (fun p => "        " ++ jstr p.1 ++ ": " ++ floatRepr p.2))
      ++ "\n    \x7d"

/-- One ingredient object at indent level 4 (inside the per-recipe
`ingredients` array), following `Recipe.to_dict`. -/
def ingJson (i : IngredientItem) : String :=
  "                \x7b\n"
    ++ "                    \"id\": " ++ jstr i.id ++ ",\n"
    ++ "                    \"name\": " ++ jstr i.name ++ ",\n"
    ++ "                    \"qty_g\": " ++ floatRepr i.qty_g ++ "\n"
    ++ "                \x7d"

/-- One recipe object at indent level 2. -/
def recipeJson (r : Recipe) : String :=
  "        \x7b\n            \"name\": " ++ jstr r.name ++ ",\n            \"ingredients\": "
    ++ (if r.ingredients.isEmpty then "[]"
        else "[\n" ++ String.intercalate (",\n") (r.ingredients.map ingJson) ++ "\n            ]")
    ++ "\n        \x7d"

/-- The `recipes` array at indent level 1. -/
def recipesJson (rs : List Recipe) : String :=
  if rs.isEmpty then "[]"
  else "[\n" ++ String.intercalate (",\n") (rs.map recipeJson) ++ "\n    ]"

/-- The complete document `DataPipeline._save` serializes. -/
def jsonOf (w : Warehouse) : String :=
  "\x7b\n    \"metadata\": \x7b\n        \"version\": \"2.0\",\n        \"generated_by\": \"Python ETL\"\n    \x7d,\n    \"prices\": "
    ++ pricesJson w.prices
    ++ ",\n    \"recipes\": "
    ++ recipesJson w.recipes
    ++ "\n\x7d"

/-! ### The write and its failure modes

`_save` executes `open(OUTPUT_FILE, 'w')` and then streams the document
with `json.dump`; `except IOError` catches a failed write and only logs
it.  An `IOError` can arise at two points: the `open` itself may raise
(permission denied, read-only filesystem, …), in which case the
destination is untouched; or, once the `open` has succeeded - and with
it truncated whatever artifact was at the destination - the streaming
write may raise after some prefix of the document reached the file. -/

inductive WriteOutcome where
  /-- `open` and `json.dump` both succeed. -/
  | ok
  /-- `open(OUTPUT_FILE, 'w')` itself raises `IOError`, before the
  destination is truncated. -/
  | openFail
  /-- `open` succeeds (truncating the destination) and the streaming
  write raises `IOError` after `n` characters. -/
  | failAfter (n : Nat)
deriving DecidableEq

/-- Content of the destination file after `_save`'s write attempt.
`prev`, the artifact present before the run, survives exactly when the
`open` itself fails; once the `open` succeeds, `open(..., 'w')` has
truncated `prev` before the first byte of the new document is
produced. -/
def fileAfterSave (prev doc : String) : WriteOutcome → String
  | .ok => doc
  | .openFail => prev
  | .failAfter n => ⟨doc.data.take n⟩

/-- `DataPipeline._save`: returns the resulting file content and
whether an `IOError` was raised (and caught and logged). -/
def saveModel (prev doc : String) (o : WriteOutcome) : String × Bool :=
  (fileAfterSave prev doc o,
   match o with | .ok => false | .openFail => true | .failAfter _ => true)

/-- Result of a completed `DataPipeline.run`. -/
structure RunResult where
  warehouse : Warehouse
  file : String
  saveErrorLogged : Bool
deriving DecidableEq

/-- `DataPipeline.run`: extract and merge, extract recipes, `_save`.
Every failure site is wrapped by the source - each extractor body by
`except Exception` and the write by `except IOError` - so no execution
path propagates an exception; the model accordingly never builds the
`.error` constructor, and a persistence failure only sets
`saveErrorLogged` before `run` logs overall success. -/
def runModel (fs : FS) (prev : String) (o : WriteOutcome) : Except String RunResult :=
  let w := wareOf fs
  let s := saveModel prev (jsonOf w) o
  .ok { warehouse := w, file := s.1, saveErrorLogged := s.2 }

/-! ### Remaining definitions used by the statements below -/

/-- The filesystem with no input file present. -/
def fsEmpty : FS := ⟨none, none, none, none⟩

/-- Whether a run result is a normal (non-propagating) completion. -/
def runOk : Except String RunResult → Bool
  | .ok _ => true
  | .error _ => false

/-- Whether the run swallowed (logged) an `IOError` from `_save`. -/
def runSaveErrorLogged : Except String RunResult → Bool
  | .ok r => r.saveErrorLogged
  | .error _ => false

/-- The value of the last binding for `k` in a list of key/value
events (`none` when no event mentions `k`). -/
def lastValue : List (String × ℚ) → String → Option ℚ
  | [], _ => none
  | e :: t, k =>
    match lastValue t k with
    | some v => some v
    | none => if e.1 = k then some e.2 else none

/-- Claim C6's reading of one cell pair of the tabular scan: when the
left cell resolves and the right cell is a price candidate (contains a
currency marker or is purely numeric after removing the dot
separators), the recorded event is the parsed (canonical key, price)
pair; a failed parse records nothing. -/
def excelEvent (p : String × String) : Option (String × ℚ) :=
  match normalize (.str p.1) with
  | none => none
  | some k =>
    if priceCandidate p.2 then (pyFloat (cleanPrice p.2)).map (fun v => (k, v)) else none

/-- All adjacent cell pairs of the grid in row-major scan order. -/
def rowMajorPairs (grid : Grid) : List (String × String) :=
  (grid.map rowPairs).flatten

/-! ## Theorems -/

/-! ### Generic list and dict lemmas -/

lemma any_eq_find_isSome (p : (String × String) → Bool) (l : List (String × String)) :
    l.any p = (l.find? p).isSome := by
  induction l with
  | nil => rfl
  | cons a t ih =>
      by_cases h : p a
      · simp [List.any_cons, List.find?_cons, h]
      · simp [List.any_cons, List.find?_cons, h, ih]

lemma listLeadsWith_refl : ∀ l : List Char, listLeadsWith l l = true := by
  intro l
  induction l with
  | nil => rfl
  | cons c t ih => simp [listLeadsWith, ih]

lemma listLeadsWith_take : ∀ (l : List Char) (n : Nat), listLeadsWith (l.take n) l = true := by
  intro l
  induction l with
  | nil => intro n; simp [listLeadsWith]
  | cons c t ih =>
      intro n
      cases n with
      | zero => rfl
      | succ m => simp [listLeadsWith, ih]

lemma dictLookup_nil (k : String) : dictLookup [] k = none := rfl

lemma dictLookup_dictSet_self (d : Dict) (k : String) (v : ℚ) :
    dictLookup (dictSet d k v) k = some v := by
  induction d with
  | nil => simp [dictSet, dictLookup]
  | cons p t ih =>
      by_cases h : p.1 = k
      · simp [dictSet, h, dictLookup]
      · simp [dictSet, h, dictLookup, List.find?_cons,
          show (p.1 == k) = false from beq_eq_false_iff_ne.2 h] at ih ⊢
        exact ih

lemma dictLookup_dictSet_ne (d : Dict) (k : String) (v : ℚ) (x : String) (h : x ≠ k) :
    dictLookup (dictSet d k v) x = dictLookup d x := by
  induction d with
  | nil => simp [dictSet, dictLookup, show (k == x) = false from beq_eq_false_iff_ne.2 (Ne.symm h)]
  | cons p t ih =>
      by_cases hp : p.1 = k
      · rw [show dictSet (p :: t) k v = (k, v) :: t from by simp [dictSet, hp]]
        simp [dictLookup, List.find?_cons,
          show (k == x) = false from beq_eq_false_iff_ne.2 (Ne.symm h),
          show (p.1 == x) = false from beq_eq_false_iff_ne.2 (fun he => h (he.symm.trans hp))]
      · rw [show dictSet (p :: t) k v = p :: dictSet t k v from by simp [dictSet, hp]]
        by_cases hx : p.1 = x
        · simp [dictLookup, List.find?_cons, hx]
        · simp only [dictLookup, List.find?_cons,
            show (p.1 == x) = false from beq_eq_false_iff_ne.2 hx] at ih ⊢
          simpa using ih

lemma dictLookup_dictSet_or (d : Dict) (k : String) (v : ℚ) (x : String) (w : ℚ)
    (h : dictLookup (dictSet d k v) x = some w) : w = v ∨ dictLookup d x = some w := by
  by_cases hx : x = k
  · subst hx
    rw [dictLookup_dictSet_self] at h
    exact Or.inl (Option.some_injective ℚ h).symm
  · rw [dictLookup_dictSet_ne d k v x hx] at h
    exact Or.inr h

lemma dictLookup_dictUpdate : ∀ (es : List (String × ℚ)) (d : Dict) (k : String),
    dictLookup (dictUpdate d es) k =
      match lastValue es k with
      | some v => some v
      | none => dictLookup d k := by
  intro es
  induction es with
  | nil => intro d k; rfl
  | cons e t ih =>
      intro d k
      show dictLookup (dictUpdate (dictSet d e.1 e.2) t) k = _
      rw [ih]
      cases hl : lastValue t k with
      | some v => simp [lastValue, hl]
      | none =>
          by_cases he : e.1 = k
          · subst he; simp [lastValue, hl, dictLookup_dictSet_self]
          · simp [lastValue, hl, he, dictLookup_dictSet_ne d e.1 e.2 k (fun hk => he hk.symm)]

lemma lastValue_none_of_not_mem : ∀ (es : List (String × ℚ)) (k : String),
    k ∉ es.map Prod.fst → lastValue es k = none := by
  intro es
  induction es with
  | nil => intro k _; rfl
  | cons e t ih =>
      intro k hk
      simp only [List.map_cons, List.mem_cons] at hk
      push_neg at hk
      simp [lastValue, ih k hk.2, show ¬ e.1 = k from fun h => hk.1 h.symm]

lemma lastValue_eq_dictLookup_of_nodup :
    ∀ (es : List (String × ℚ)) (k : String),
      (es.map Prod.fst).Nodup → lastValue es k = dictLookup es k := by
  intro es
  induction es with
  | nil => intro k _; rfl
  | cons e t ih =>
      intro k hnd
      simp only [List.map_cons, List.nodup_cons] at hnd
      by_cases he : e.1 = k
      · have ht : lastValue t k = none :=
          lastValue_none_of_not_mem t k (fun hm => hnd.1 (he ▸ hm))
        simp [lastValue, ht, he, dictLookup, List.find?_cons,
          show (e.1 == k) = true from beq_iff_eq.2 he]
      · simp only [lastValue, ih k hnd.2, dictLookup, List.find?_cons,
          show (e.1 == k) = false from beq_eq_false_iff_ne.2 he]
        cases h : List.find? (fun p => p.1 == k) t with
        | none => simp [he]
        | some q => simp

/-! ### Claim C3 -/

/-- Claim C3: `normalize` returns no match on non-strings and otherwise
performs exactly the claimed two phases - exact lookup of the
lowercased, trimmed input against the static table, then (only when
that exact lookup fails) a linear scan returning the canonical value of
the first table entry (in table iteration order) whose raw name occurs
as a substring of the cleaned input; when neither phase matches, no
match is returned. -/
theorem normalize_two_phase_spec : ∀ inp : PyInput, normalize inp = normalizeClaimed inp := by
  intro inp
  cases inp with
  | nonStr => rfl
  | str text =>
      show (if masterMap.any (fun q => q.1 == cleanOf text) then _ else _) = _
      rw [any_eq_find_isSome]
      unfold normalizeClaimed exactLookup substrScan
      cases h : masterMap.find? (fun q => q.1 == cleanOf text) with
      | none => simp [h]
      | some q => simp [h]

/-! ### Claim C4 -/

/-- Claim C4: in the pipeline's merged price mapping (layout applied
first, then the tabular extractor's `update`), the tabular value wins
on every key both extractors report; in particular layout
`tomate = 500` merged with tabular `tomate = 600` yields `600`. -/
theorem merge_tabular_precedence :
    (∀ (layout tabular : Dict) (k : String) (v1 v2 : ℚ),
        (tabular.map Prod.fst).Nodup →
        dictLookup layout k = some v1 → dictLookup tabular k = some v2 →
        dictLookup (mergePrices layout tabular) k = some v2)
    ∧ dictLookup (mergePrices [(("tomate" : String), (500 : ℚ))] [("tomate", 600)]) ("tomate")
        = some 600 := by
  constructor
  · intro layout tabular k v1 v2 hnd _h1 h2
    unfold mergePrices
    rw [dictLookup_dictUpdate, lastValue_eq_dictLookup_of_nodup tabular k hnd, h2]
  · decide

/-- Closed instance of C4's theorem. -/
theorem merge_tabular_precedence_witness :
    dictLookup (mergePrices [(("papa" : String), (100 : ℚ))] [("papa", 200)]) ("papa")
      = some 200 :=
  merge_tabular_precedence.1 _ _ _ 100 200 (by decide) (by decide) (by decide)

/-! ### Claim C9 -/

/-- Claim C9: with none of the input files present every extractor
returns an empty result, the assembled `Warehouse` has empty prices and
recipes, and the run completes without raising (the model's run is a
total function whose result is a normal completion for every write
outcome). -/
theorem missing_sources_empty_warehouse :
    pdfExtract fsEmpty.pdf = []
    ∧ excelExtract (excelGridOf fsEmpty) = []
    ∧ recipeExtractOf fsEmpty.md = []
    ∧ (wareOf fsEmpty).prices = []
    ∧ (wareOf fsEmpty).recipes = []
    ∧ ∀ (prev : String) (o : WriteOutcome), runOk (runModel fsEmpty prev o) = true := by
  exact ⟨rfl, rfl, rfl, rfl, rfl, fun prev o => rfl⟩

/-! ### Claim C1 -/

/-- Counterexample to claim C1 as stated: a run in which the write of
the output document raises (`failAfter 0`, `saveErrorLogged = true`)
still completes as a normal success - `run` returns normally (and the
source then logs overall success), so the persistence failure is not
surfaced past the orchestration boundary. -/
theorem run_completes_despite_write_failure_cex :
    runModel fsEmpty ("previous artifact") (.failAfter 0)
      = .ok { warehouse := { prices := [], recipes := [] },
              file := "", saveErrorLogged := true } := by
  rfl

/-- Claim C1 amended: a persistence failure is caught inside
`DataPipeline._save`'s `except IOError` handler and only logged; for
every run whose write raises, `Pipeline.run` still completes as a
normal success with the failure recorded in the error log alone. -/
theorem persistence_failure_logged_not_propagated :
    ∀ (fs : FS) (prev : String) (n : Nat),
      runOk (runModel fs prev (.failAfter n)) = true
      ∧ runSaveErrorLogged (runModel fs prev (.failAfter n)) = true := by
  intro fs prev n
  exact ⟨rfl, rfl⟩

/-! ### Claim C2 -/

/-- Counterexample to claim C2 as stated: after a write that fails
4 characters in, the destination file holds neither the previous
artifact nor the complete new document - a partial document is
observable. -/
theorem partial_artifact_reachable_cex :
    ¬ (fileAfterSave ("OLD ARTIFACT") (jsonOf (wareOf fsEmpty)) (.failAfter 4)
          = ("OLD ARTIFACT")
       ∨ fileAfterSave ("OLD ARTIFACT") (jsonOf (wareOf fsEmpty)) (.failAfter 4)
          = jsonOf (wareOf fsEmpty)) := by
  decide

/-- Claim C2 amended: the warehouse write is not atomic.  When the
`open` of the destination itself raises, the prior artifact survives
intact; once the `open` succeeds it has truncated the destination and
the document is serialized straight into it, so the destination then
holds a prefix of the new document - all of it exactly on success, and
a proper partial document when the write fails midway, the prior
artifact being lost in that case. -/
theorem save_outcome_characterization :
    ∀ (prev : String) (fs : FS) (o : WriteOutcome),
      (o = WriteOutcome.openFail → fileAfterSave prev (jsonOf (wareOf fs)) o = prev)
      ∧ (o ≠ WriteOutcome.openFail →
          listLeadsWith (fileAfterSave prev (jsonOf (wareOf fs)) o).data
              (jsonOf (wareOf fs)).data = true)
      ∧ (o = WriteOutcome.ok → fileAfterSave prev (jsonOf (wareOf fs)) o = jsonOf (wareOf fs)) := by
  intro prev fs o
  cases o with
  | ok => exact ⟨fun h => (by cases h), fun _ => listLeadsWith_refl _, fun _ => rfl⟩
  | openFail => exact ⟨fun _ => rfl, fun h => absurd rfl h, fun h => (by cases h)⟩
  | failAfter n =>
      exact ⟨fun h => (by cases h), fun _ => listLeadsWith_take _ _, fun h => (by cases h)⟩

/-- Closed instance of C2's amended theorem: on an open failure the old
artifact is untouched, and on success the destination holds the whole
new document. -/
theorem save_outcome_characterization_witness :
    fileAfterSave ("OLD") (jsonOf (wareOf fsEmpty)) WriteOutcome.openFail = ("OLD")
    ∧ fileAfterSave ("OLD") (jsonOf (wareOf fsEmpty)) WriteOutcome.ok = jsonOf (wareOf fsEmpty) :=
  ⟨(save_outcome_characterization ("OLD") fsEmpty WriteOutcome.openFail).1 rfl,
   (save_outcome_characterization ("OLD") fsEmpty WriteOutcome.ok).2.2 rfl⟩

/-! ### Claim C5 -/

/-- Claim C5: for every ingredient line the extractor parses
successfully, the stored `qty_g` is `1000 ×` the parsed numeric value
when the captured unit token begins with `kg` (case-insensitively, so
for both the `kg` and `kgs` spellings of the source document), and the
parsed value unchanged when it does not (the gram units `g`/`grs`);
every stored quantity is therefore in grams. -/
theorem qty_unit_conversion :
    ∀ (line : String) (item : IngredientItem),
      parseIngredientLine line = some item →
      ∃ cant unit prod q,
        lineGroups line = some (cant, unit, prod)
        ∧ pyFloat ⟨cant.map commaDot⟩ = some q
        ∧ (listLeadsWith ['k', 'g'] (unit.map pyLowerChar) = true → item.qty_g = 1000 * q)
        ∧ (listLeadsWith ['k', 'g'] (unit.map pyLowerChar) = false → item.qty_g = q) := by
  intro line item h
  unfold parseIngredientLine at h
  split at h
  next => cases h
  next cant unit prod hg =>
    split at h
    next => cases h
    next k _hn =>
      split at h
      next => cases h
      next q hq =>
        cases h
        refine ⟨cant, unit, prod, q, hg, hq, ?_, ?_⟩
        · intro hb; simp [hb, mul_comm]
        · intro hb; simp [hb]

/-- Closed instance of C5's theorem at the line `1 kg de Asado`. -/
theorem qty_unit_conversion_witness :
    ∃ cant unit prod q,
      lineGroups ("1 kg de Asado") = some (cant, unit, prod)
      ∧ pyFloat ⟨cant.map commaDot⟩ = some q
      ∧ (listLeadsWith ['k', 'g'] (unit.map pyLowerChar) = true →
          (IngredientItem.mk ("asado_de_tira") ("Asado") 1000).qty_g = 1000 * q)
      ∧ (listLeadsWith ['k', 'g'] (unit.map pyLowerChar) = false →
          (IngredientItem.mk ("asado_de_tira") ("Asado") 1000).qty_g = q) :=
  qty_unit_conversion ("1 kg de Asado") (IngredientItem.mk ("asado_de_tira") ("Asado") 1000)
    (by decide)

/-! ### Claim C7 -/

/-- Claim C7: on the document `# Puchero\n1 kg de Asado\n500 grs de
Zapallo` the recipe extractor produces exactly one recipe, named
`Puchero`, whose ingredient sequence is `asado_de_tira` with 1000 g
followed by `zapallo` with 500 g. -/
theorem puchero_end_to_end :
    (recipeExtract ("# Puchero\n1 kg de Asado\n500 grs de Zapallo")).map
        (fun r => (r.name, r.ingredients.map (fun i => (i.id, i.qty_g))))
      = [(("Puchero" : String), [(("asado_de_tira" : String), (1000 : ℚ)), ("zapallo", 500)])] := by
  decide

/-! ### Claim C8 -/

/-- Claim C8: every recipe the extractor emits has a nonempty
ingredient list, and a block whose every line after the title fails to
parse (both grammars included, name-resolution failures included)
contributes no recipe at all. -/
theorem recipes_nonempty_ingredients :
    (∀ (content : String) (r : Recipe), r ∈ recipeExtract content → r.ingredients ≠ [])
    ∧ (∀ block : List Char,
        (∀ l ∈ (blockLines block).tail, parseIngredientLine ⟨l⟩ = none) →
        processBlock block = none) := by
  constructor
  · intro content r hr
    obtain ⟨b, _hb, hpb⟩ := List.mem_filterMap.1 hr
    unfold processBlock at hpb
    cases hbl : blockLines b with
    | nil => rw [hbl] at hpb; cases hpb
    | cons title rest =>
        rw [hbl] at hpb
        by_cases ht : listHasSub ("Lista").data title = true
        · simp [ht] at hpb
        · simp only [ht] at hpb
          by_cases hi : (rest.filterMap (fun l => parseIngredientLine ⟨l⟩)).isEmpty = true
          · simp [hi] at hpb
          · simp only [hi, Bool.false_eq_true, if_false, if_neg] at hpb
            cases hpb
            simpa [List.isEmpty_iff] using hi
  · intro block hall
    unfold processBlock
    cases hbl : blockLines block with
    | nil => rfl
    | cons title rest =>
        rw [hbl] at hall
        by_cases ht : listHasSub ("Lista").data title = true
        · simp [ht]
        · have : rest.filterMap (fun l => parseIngredientLine ⟨l⟩) = [] :=
            List.filterMap_eq_nil_iff.2 hall
          simp [ht, this]

/-- Closed instance of C8's theorem: the parsed `Puchero` recipe has a
nonempty ingredient list, and a block with no parsable line yields no
recipe. -/
theorem recipes_nonempty_ingredients_witness :
    ((Recipe.mk ("Puchero") [IngredientItem.mk ("asado_de_tira") ("Asado") 1000]).ingredients ≠ [])
    ∧ processBlock ("Sopa\nnada que ver\n???").data = none :=
  ⟨recipes_nonempty_ingredients.1 ("# Puchero\n1 kg de Asado")
      (Recipe.mk ("Puchero") [IngredientItem.mk ("asado_de_tira") ("Asado") 1000]) (by decide),
   recipes_nonempty_ingredients.2 (("Sopa\nnada que ver\n???").data) (by decide)⟩

/-! ### Claim C6 -/

lemma excelStep_eq_event (d : Dict) (p : String × String) :
    excelStep d p =
      match excelEvent p with
      | some e => dictSet d e.1 e.2
      | none => d := by
  unfold excelStep excelEvent
  cases normalize (.str p.1) with
  | none => rfl
  | some k =>
      by_cases hc : priceCandidate p.2 = true
      · simp only [hc, if_true]
        cases pyFloat (cleanPrice p.2) with
        | none => rfl
        | some v => rfl
      · simp [hc]

lemma foldl_excelStep_eq_update :
    ∀ (ps : List (String × String)) (d : Dict),
      ps.foldl excelStep d = dictUpdate d (ps.filterMap excelEvent) := by
  intro ps
  induction ps with
  | nil => intro d; rfl
  | cons p t ih =>
      intro d
      show t.foldl excelStep (excelStep d p) = _
      rw [ih, excelStep_eq_event]
      cases he : excelEvent p with
      | none => simp [List.filterMap_cons, he]
      | some e => simp [List.filterMap_cons, he, dictUpdate]

lemma excelScan_eq_rowMajor_fold :
    ∀ (grid : Grid) (d : Dict),
      grid.foldl (fun d row => (rowPairs row).foldl excelStep d) d
        = (rowMajorPairs grid).foldl excelStep d := by
  intro grid
  induction grid with
  | nil => intro d; rfl
  | cons row t ih =>
      intro d
      show t.foldl _ ((rowPairs row).foldl excelStep d) = _
      rw [ih]
      simp [rowMajorPairs, List.foldl_append]

/-- Claim C6: the tabular extractor's output is characterized by the
row-major scan events - a cell pair is recorded exactly when the left
cell resolves and the right cell is a price candidate (contains `$` or
is purely numeric after removing dots) and its cleaned text parses
under the thousands-dot/decimal-comma convention - and the extractor's
value for each canonical key is the value of the **last** such event
for that key in row-major order. -/
theorem excel_scan_last_match_wins :
    ∀ (grid : Grid) (k : String),
      dictLookup (excelExtract (some grid)) k
        = lastValue ((rowMajorPairs grid).filterMap excelEvent) k := by
  intro grid k
  show dictLookup (excelScan grid) k = _
  unfold excelScan
  rw [excelScan_eq_rowMajor_fold, foldl_excelStep_eq_update, dictLookup_dictUpdate]
  cases lastValue ((rowMajorPairs grid).filterMap excelEvent) k with
  | none => rfl
  | some v => rfl

/-! ### Claim C10 -/

lemma mem_pyStripL (l : List Char) (c : Char) (h : c ∈ pyStripL l) : c ∈ l := by
  unfold pyStripL at h
  exact (List.dropWhile_sublist pySpaceB).subset
    (List.mem_reverse.1 ((List.dropWhile_sublist pySpaceB).subset (List.mem_reverse.1 h)))

lemma pyFloatMag_nonneg (u : List Char) (q : ℚ) (h : pyFloatMag u = some q) : 0 ≤ q := by
  unfold pyFloatMag at h
  split at h
  · split at h
    · cases h
    · cases h
      exact Nat.cast_nonneg _
  · split at h
    · cases h
      exact add_nonneg (Nat.cast_nonneg _)
        (div_nonneg (Nat.cast_nonneg _) (by positivity))
    · cases h
  · cases h

lemma pyFloat_nonneg (s : String) (q : ℚ)
    (hch : ∀ c ∈ s.data, c.isDigit = true ∨ c = '.')
    (h : pyFloat s = some q) : 0 ≤ q := by
  unfold pyFloat at h
  split at h
  next r heq =>
    have hm : '-' ∈ pyStripL s.data := by rw [heq]; exact List.mem_cons_self _ _
    rcases hch '-' (mem_pyStripL _ _ hm) with hd | hd <;> simp at hd
  next r _heq => exact pyFloatMag_nonneg r q h
  next => exact pyFloatMag_nonneg _ q h

lemma mapped_chars_digit_or_dot (ps : List Char) (hps : ∀ c ∈ ps, numChar c = true) :
    ∀ c ∈ ps.map commaDot, c.isDigit = true ∨ c = '.' := by
  intro c hc
  obtain ⟨d, hd, rfl⟩ := List.mem_map.1 hc
  have hn := hps d hd
  unfold commaDot
  by_cases hdc : d = ','
  · simp [hdc]
  · rw [if_neg hdc]
    unfold numChar at hn
    simp only [Bool.or_eq_true, beq_iff_eq] at hn
    rcases hn with (h1 | h2) | h3
    · exact Or.inl h1
    · exact Or.inr h2
    · exact absurd h3 hdc

lemma firstNumTok_chars :
    ∀ (l ps : List Char), firstNumTok l = some ps → ∀ c ∈ ps, numChar c = true := by
  intro l
  induction l with
  | nil => intro ps h; cases h
  | cons a t ih =>
      intro ps h
      unfold firstNumTok at h
      by_cases ha : numChar a = true
      · rw [if_pos ha] at h
        cases h
        exact fun c hc => List.mem_takeWhile_imp hc
      · rw [if_neg ha] at h
        exact ih ps h

lemma patAAt_cant (cs cant u p : List Char) (h : patAAt cs = some (cant, u, p)) :
    ∀ c ∈ cant, numChar c = true := by
  unfold patAAt at h
  split at h
  · cases h
  · split at h
    · cases h
      exact fun c hc => List.mem_takeWhile_imp hc
    · cases h

lemma patASearch_cant :
    ∀ (cs cant u p : List Char), patASearch cs = some (cant, u, p) →
      ∀ c ∈ cant, numChar c = true := by
  intro cs
  induction cs with
  | nil => intro cant u p h; cases h
  | cons a t ih =>
      intro cant u p h
      unfold patASearch at h
      split at h
      next r heq => cases h; exact patAAt_cant _ _ _ _ heq
      next => exact ih _ _ _ h

lemma patBAfter_num (cs num u : List Char) (h : patBAfter cs = some (num, u)) :
    ∀ c ∈ num, numChar c = true := by
  unfold patBAfter at h
  split at h
  · cases h
  · split at h
    · cases h
      exact fun c hc => List.mem_takeWhile_imp hc
    · cases h

lemma patBTry_num (cs : List Char) (n : Nat) (prod num u : List Char)
    (h : patBTry cs n = some (prod, num, u)) : ∀ c ∈ num, numChar c = true := by
  unfold patBTry at h
  split at h
  · split at h
    next p' hp' => cases h; exact patBAfter_num _ _ _ hp'
    next => cases h
  · cases h

lemma patBColon_cant :
    ∀ (n : Nat) (cs prod num u : List Char), patBColon cs n = some (prod, num, u) →
      ∀ c ∈ num, numChar c = true := by
  intro n
  induction n with
  | zero => intro cs prod num u h; cases h
  | succ m ih =>
      intro cs prod num u h
      unfold patBColon at h
      split at h
      next r heq => cases h; exact patBTry_num _ _ _ _ _ heq
      next => exact ih _ _ _ _ h

lemma patBSearch_cant :
    ∀ (cs prod num u : List Char), patBSearch cs = some (prod, num, u) →
      ∀ c ∈ num, numChar c = true := by
  intro cs
  induction cs with
  | nil => intro prod num u h; cases h
  | cons a t ih =>
      intro prod num u h
      unfold patBSearch at h
      split at h
      next r heq => cases h; exact patBColon_cant _ _ _ _ _ heq
      next => exact ih _ _ _ h

lemma lineGroups_cant (line : String) (cant unit prod : List Char)
    (h : lineGroups line = some (cant, unit, prod)) : ∀ c ∈ cant, numChar c = true := by
  unfold lineGroups at h
  split at h
  next r heq => cases h; exact patASearch_cant _ _ _ _ heq
  next =>
    split at h
    next p c u heq => cases h; exact patBSearch_cant _ _ _ _ heq
    next => cases h

lemma pdfProcessLine_nonneg (d : Dict) (line : List Char)
    (hd : ∀ k v, dictLookup d k = some v → 0 ≤ v) :
    ∀ k v, dictLookup (pdfProcessLine d line) k = some v → 0 ≤ v := by
  intro k v h
  unfold pdfProcessLine at h
  split at h
  · split at h
    · exact hd k v h
    next ps hps =>
      split at h
      · exact hd k v h
      next k0 _ =>
        split at h
        · exact hd k v h
        next v0 hv0 =>
          rcases dictLookup_dictSet_or d k0 v0 k v h with rfl | hold
          · refine pyFloat_nonneg _ _ ?_ hv0
            exact mapped_chars_digit_or_dot _
              (fun c hc => firstNumTok_chars _ _ hps c (List.mem_of_mem_filter hc))
          · exact hd k v hold
  · exact hd k v h

lemma pdf_fold_nonneg :
    ∀ (lines : List (List Char)) (d : Dict),
      (∀ k v, dictLookup d k = some v → 0 ≤ v) →
      ∀ k v, dictLookup (lines.foldl pdfProcessLine d) k = some v → 0 ≤ v := by
  intro lines
  induction lines with
  | nil => intro d hd; exact hd
  | cons line t ih =>
      intro d hd
      exact ih (pdfProcessLine d line) (pdfProcessLine_nonneg d line hd)

/-- Claim C10: every quantity stored by the recipe line parser and
every price produced by the layout (PDF) extractor is non-negative,
because both numeric tokens are matched by `[\d\.,]+` (digits, dots,
commas only - no sign) before conversion. -/
theorem parsed_quantities_nonneg :
    (∀ (line : String) (item : IngredientItem),
        parseIngredientLine line = some item → 0 ≤ item.qty_g)
    ∧ (∀ (file : Option (List String)) (k : String) (v : ℚ),
        dictLookup (pdfExtract file) k = some v → 0 ≤ v) := by
  constructor
  · intro line item h
    unfold parseIngredientLine at h
    split at h
    next => cases h
    next cant unit prod hg =>
      split at h
      next => cases h
      next k _hn =>
        split at h
        next => cases h
        next q hq =>
          cases h
          have hq0 : 0 ≤ q :=
            pyFloat_nonneg _ _ (mapped_chars_digit_or_dot _ (lineGroups_cant _ _ _ _ hg)) hq
          by_cases hb : listLeadsWith ['k', 'g'] (unit.map pyLowerChar) = true
          · simpa [hb] using mul_nonneg hq0 (show (0 : ℚ) ≤ 1000 by norm_num)
          · simpa [hb] using hq0
  · intro file k v h
    cases file with
    | none => simp [pdfExtract, dictLookup] at h
    | some pages =>
        refine pdf_fold_nonneg _ [] ?_ k v h
        intro k' v' h'
        simp [dictLookup] at h'

/-- Closed instance of C10's theorem: the `Zapallo` line stores 500 g,
and the PDF line `Tomate $ 1.500,50` records price 1500.5; both are
non-negative. -/
theorem parsed_quantities_nonneg_witness :
    (parseIngredientLine ("500 grs de Zapallo")
        = some (IngredientItem.mk ("zapallo") ("rs de Zapallo") 500)
      ∧ (0 : ℚ) ≤ (IngredientItem.mk ("zapallo") ("rs de Zapallo") 500).qty_g)
    ∧ (dictLookup (pdfExtract (some ["Tomate $ 1.500,50"])) ("tomate") = some (3001 / 2)
      ∧ (0 : ℚ) ≤ 3001 / 2) :=
  ⟨⟨by decide,
    parsed_quantities_nonneg.1 ("500 grs de Zapallo")
      (IngredientItem.mk ("zapallo") ("rs de Zapallo") 500) (by decide)⟩,
   ⟨by decide,
    parsed_quantities_nonneg.2 (some ["Tomate $ 1.500,50"]) ("tomate") (3001 / 2) (by decide)⟩⟩

end WNS
